import Mathlib

/-!
Verification of `src/migration/analyze_scraper.py`.

The script parses a Python source file with `ast.parse`, walks the tree with
`ast.walk`, and emits a JSON analysis record.  We embed the fragment of the
Python AST that the script inspects, the `ast.walk` traversal, and every
function of the script, then prove the specified properties.
-/

namespace AnalyzeScraper

/-- Fragment of the Python `ast` node type that `analyze_scraper.py` inspects.
Constructors mirror the `ast` classes and keep their field order (which fixes
the child order used by `ast.iter_child_nodes`, hence by `ast.walk`).
`alias` children of import statements, decorator lists, argument nodes and
other leaves that carry no string literals and match none of the script's
`isinstance` tests are omitted: they influence neither the walk's relative
order of the remaining nodes nor any check the script performs. -/
inductive PyNode where
  /-- `ast.Module(body)` -/
  | module (body : List PyNode)
  /-- `ast.Import(names)`: the `name` of each alias -/
  | importStmt (names : List String)
  /-- `ast.ImportFrom(module, names)`: `module` is `None` for a bare relative import -/
  | importFrom (module : Option String) (names : List String)
  /-- `ast.ClassDef(name, body)` -/
  | classDef (name : String) (body : List PyNode)
  /-- `ast.FunctionDef(name, body)` with its `lineno`/`end_lineno` attributes -/
  | functionDef (name : String) (lineno endLineno : Nat) (body : List PyNode)
  /-- `ast.Return(value)` -/
  | ret (value : Option PyNode)
  /-- `ast.If(test, body, orelse)` -/
  | ifStmt (test : PyNode) (body orelse : List PyNode)
  /-- `ast.While(test, body, orelse)` -/
  | whileStmt (test : PyNode) (body orelse : List PyNode)
  /-- `ast.For(target, iter, body, orelse)` -/
  | forStmt (target iter : PyNode) (body orelse : List PyNode)
  /-- `ast.Try(body, handlers, orelse, finalbody)` -/
  | tryStmt (body handlers orelse finalBody : List PyNode)
  /-- `ast.ExceptHandler(type, body)` -/
  | exceptHandler (typeExpr : Option PyNode) (body : List PyNode)
  /-- `ast.Expr(value)` -/
  | exprStmt (value : PyNode)
  /-- `ast.Assign(targets, value)` -/
  | assign (targets : List PyNode) (value : PyNode)
  /-- `ast.Call(func, args, keywords)`: `keywords` holds the keyword values -/
  | call (func : PyNode) (args keywords : List PyNode)
  /-- a string literal (`ast.Str` / string `ast.Constant`) -/
  | strLit (s : String)
  /-- `ast.Name(id)` -/
  | nameExpr (id : String)
  /-- `ast.Attribute(value, attr)` -/
  | attributeExpr (value : PyNode) (attr : String)
  /-- a numeric literal -/
  | numLit (n : Int)

namespace PyNode

/-- `ast.iter_child_nodes`: the child nodes of a node, in field order. -/
def children : PyNode → List PyNode
  | .module body => body
  | .importStmt _ => []
  | .importFrom _ _ => []
  | .classDef _ body => body
  | .functionDef _ _ _ body => body
  | .ret value => value.toList
  | .ifStmt test body orelse => test :: (body ++ orelse)
  | .whileStmt test body orelse => test :: (body ++ orelse)
  | .forStmt target iter body orelse => target :: iter :: (body ++ orelse)
  | .tryStmt body handlers orelse finalBody => body ++ handlers ++ orelse ++ finalBody
  | .exceptHandler typeExpr body => typeExpr.toList ++ body
  | .exprStmt value => [value]
  | .assign targets value => targets ++ [value]
  | .call func args keywords => func :: (args ++ keywords)
  | .strLit _ => []
  | .nameExpr _ => []
  | .attributeExpr value _ => [value]
  | .numLit _ => []

theorem list_map_sizeOf_lt (l : List PyNode) : (l.map sizeOf).sum < sizeOf l := by
  induction l with
  | nil => simp
  | cons a t ih =>
      simp only [List.map_cons, List.sum_cons, List.cons.sizeOf_spec]
      omega

theorem children_sizeOf_lt (n : PyNode) : ((children n).map sizeOf).sum < sizeOf n := by
  cases n with
  | module body => have := list_map_sizeOf_lt body; simp [children]; omega
  | importStmt names => simp [children]
  | importFrom m names => simp [children]
  | classDef name body => have := list_map_sizeOf_lt body; simp [children]; omega
  | functionDef name l e body => have := list_map_sizeOf_lt body; simp [children]; omega
  | ret value =>
      cases value with
      | none => simp [children, Option.toList]
      | some v => simp [children, Option.toList]; try omega
  | ifStmt test body orelse =>
      have h1 := list_map_sizeOf_lt body; have h2 := list_map_sizeOf_lt orelse
      simp [children]; omega
  | whileStmt test body orelse =>
      have h1 := list_map_sizeOf_lt body; have h2 := list_map_sizeOf_lt orelse
      simp [children]; omega
  | forStmt target iter body orelse =>
      have h1 := list_map_sizeOf_lt body; have h2 := list_map_sizeOf_lt orelse
      simp [children]; omega
  | tryStmt body handlers orelse finalBody =>
      have h1 := list_map_sizeOf_lt body; have h2 := list_map_sizeOf_lt handlers
      have h3 := list_map_sizeOf_lt orelse; have h4 := list_map_sizeOf_lt finalBody
      simp [children]; omega
  | exceptHandler typeExpr body =>
      have h1 := list_map_sizeOf_lt body
      cases typeExpr with
      | none => simp [children, Option.toList]; try omega
      | some t => simp [children, Option.toList]; try omega
  | exprStmt value => simp [children]; try omega
  | assign targets value =>
      have h1 := list_map_sizeOf_lt targets
      simp [children]; omega
  | call func args keywords =>
      have h1 := list_map_sizeOf_lt args; have h2 := list_map_sizeOf_lt keywords
      simp [children]; omega
  | strLit s => simp [children]
  | nameExpr id => simp [children]
  | attributeExpr value attr => simp [children]; try omega
  | numLit n => simp [children]

end PyNode

open PyNode

/-- The queue loop of `ast.walk`: pop a node from the left of the deque, push
its children on the right, and yield the popped node. -/
def walkAux (q : List PyNode) : List PyNode :=
  match q with
  | [] => []
  | n :: rest => n :: walkAux (rest ++ children n)
termination_by (q.map sizeOf).sum
decreasing_by
  simp only [List.map_append, List.sum_append, List.map_cons, List.sum_cons]
  have := PyNode.children_sizeOf_lt n
  omega

/-- `ast.walk(node)`: breadth-first traversal (the node itself first, then a
FIFO queue of children). -/
def walk (node : PyNode) : List PyNode := walkAux [node]

/-! ### String heuristics

`extract_css_selector` runs `re.search` with three fixed regexes;
`extract_schema_property` tests plain substring containment (`pattern in text`)
against a fixed vocabulary.  We model the character classes over the ASCII
range (`\w` = `[A-Za-z0-9_]`), which covers every string the script's regexes
are aimed at. -/

/-- `[a-zA-Z]` -/
def isAsciiLetter (c : Char) : Bool := (97 ≤ c.toNat && c.toNat ≤ 122) || (65 ≤ c.toNat && c.toNat ≤ 90)

/-- the character class `[\w-]` -/
def isWordHyphen (c : Char) : Bool := isAsciiLetter c || c.isDigit || c = '_' || c = '-'

/-- `re.search(r"[.#][\w-]+", text)` as a Bool: some `.` or `#` in the text is
immediately followed by a word-or-hyphen character. -/
def searchClassId : List Char → Bool
  | c :: c2 :: rest => ((c = '.' || c = '#') && isWordHyphen c2) || searchClassId (c2 :: rest)
  | _ => false

/-- `re.search` of the element-selector regex
`[a-zA-Z][\w-]*(?:\[[\w-]+[=~|^$*]?["\x27]?[^"\x27]*["\x27]?\])?` as a Bool.
A match starting at position `i` requires exactly that `text[i]` is an ASCII
letter: the `[\w-]*` part admits the empty match and the whole bracketed
attribute group is optional (`?`), so the search succeeds iff the text
contains an ASCII letter anywhere. -/
def searchElement (s : List Char) : Bool := s.any isAsciiLetter

/-- After the leading `[a-zA-Z]` of the pseudo-selector regex: does a prefix of
the remaining text match `[\w-]*:[\w-]+`?  Since `:` is not in `[\w-]`, the
star's extent is forced, so the match is deterministic. -/
def pseudoTail : List Char → Bool
  | ':' :: c2 :: _ => isWordHyphen c2
  | c :: rest => isWordHyphen c && pseudoTail rest
  | [] => false

/-- `re.search(r"[a-zA-Z][\w-]*:[\w-]+", text)` as a Bool. -/
def searchPseudo : List Char → Bool
  | [] => false
  | c :: rest => (isAsciiLetter c && pseudoTail rest) || searchPseudo rest

/-- `extract_css_selector(text)`: return the whole literal when any of the
three regexes matches anywhere inside it (the loop returns `text` on the first
pattern that matches), else `None`. -/
def extract_css_selector (text : String) : Option String :=
  if searchClassId text.data || searchElement text.data || searchPseudo text.data then
    some text
  else
    none

/-- Python's `str.split(sep)` for a one-character separator: splits at every
occurrence, keeping empty pieces (so `"".split(c) = [""]`). -/
def splitOnChar (sep : Char) : List Char → List (List Char)
  | [] => [[]]
  | c :: rest =>
      match splitOnChar sep rest with
      | [] => [[]]
      | g :: gs => if c = sep then [] :: g :: gs else (c :: g) :: gs

/-- Python's `"\n".join(lines)` over the pieces picked by a slice. -/
def joinLines (lines : List (List Char)) : String := ⟨List.intercalate ['\n'] lines⟩

/-- Python's `str.lower()`, restricted to ASCII letters (the only characters
the heuristics compare against). -/
def pyLower (s : String) : String :=
  ⟨s.data.map fun c => if 65 ≤ c.toNat && c.toNat ≤ 90 then Char.ofNat (c.toNat + 32) else c⟩

/-- Python's substring test `needle in hay`. -/
def containsSubstr (needle : List Char) : List Char → Bool
  | [] => needle.isEmpty
  | c :: rest => needle.isPrefixOf (c :: rest) || containsSubstr needle rest

/-- The fixed schema.org vocabulary, in the order the source lists it. -/
def schema_patterns : List String :=
  ["recipeIngredient", "recipeInstructions", "totalTime", "cookTime", "prepTime",
   "recipeYield", "name", "description", "author", "image", "datePublished", "nutrition"]

/-- `extract_schema_property(text)`: the first vocabulary entry that occurs as
a substring of the literal, else `None`. -/
def extract_schema_property (text : String) : Option String :=
  schema_patterns.find? (fun p => containsSubstr p.data text.data)

/-! ### Per-method analysis -/

/-- The per-method record built by `analyze_method`.  The running complexity
total is a Python number that only ever grows by `1` or `0.5`, so every value
it takes is an exact multiple of one half; the final `int(...)` truncation is
therefore exact integer arithmetic, modelled in `Int`. -/
structure MethodAnalysis where
  name : String
  returnType : String
  selectors : List String
  schemaProperties : List String
  complexity : Int
  body : String
deriving DecidableEq, Repr

/-- `extract_host_name(method_node)`: the first node in `ast.walk(method_node)`
that is a `Return` whose value is a string literal yields that string. -/
def extract_host_name (method_node : PyNode) : Option String :=
  (walk method_node).findSome? fun node =>
    match node with
    | .ret (some (.strLit s)) => some s
    | _ => none

/-- `calculate_method_complexity(method_node)`: walk the subtree; `If`, `While`
and `For` add 1, `Try` adds 1, `Call` adds 0.5; finally `int(...)` truncates
toward zero.  The total is tracked in half-units (`+= 1` adds 2, `+= 0.5` adds
1) and the truncation is `Int.tdiv` by 2 (division truncating toward zero),
which on the (always non-negative) total is exactly Python's `int()` of the
float.  `complexityStep` is one iteration of the loop:
`If`/`While`/`For` add 1 (two halves), `Try` adds 1, `Call` adds 0.5 (one
half). -/
def complexityStep (acc : Int) (node : PyNode) : Int :=
  match node with
  | .ifStmt _ _ _ => acc + 2
  | .whileStmt _ _ _ => acc + 2
  | .forStmt _ _ _ _ => acc + 2
  | .tryStmt _ _ _ _ => acc + 2
  | .call _ _ _ => acc + 1
  | _ => acc

/-- `calculate_method_complexity(method_node)`, with the loop body factored as
`complexityStep`. -/
def calculate_method_complexity (method_node : PyNode) : Int :=
  ((walk method_node).foldl complexityStep (0 : Int)).tdiv 2

/-- `analyze_method(method_node, content)`.  The script only ever calls it on
`FunctionDef` nodes; on any other node shape we return the initial record
(whose fields are exactly the literals the source initializes). -/
def analyze_method (method_node : PyNode) (content : String) : MethodAnalysis :=
  match method_node with
  | .functionDef fname lineno endLineno fbody =>
      let node : PyNode := .functionDef fname lineno endLineno fbody
      -- if method_node.lineno and method_node.end_lineno:  (0 is falsy)
      -- lines = content.split("\n"); "\n".join(lines[lineno - 1 : end_lineno])
      let body :=
        if lineno ≠ 0 ∧ endLineno ≠ 0 then
          joinLines (((splitOnChar '\n' content.data).take endLineno).drop (lineno - 1))
        else ""
      -- for node in ast.walk(method_node): if isinstance(node, ast.Str): ...
      let selectors := (walk node).filterMap fun n =>
        match n with
        | .strLit s => extract_css_selector s
        | _ => none
      let schemaProperties := (walk node).filterMap fun n =>
        match n with
        | .strLit s => extract_schema_property s
        | _ => none
      let returnType :=
        if fname = "ingredients" ∨ fname = "instructions" then "string[]"
        else if fname = "total_time" ∨ fname = "cook_time" ∨ fname = "prep_time" then "number"
        else "string"
      { name := fname
        returnType := returnType
        selectors := selectors
        schemaProperties := schemaProperties
        complexity := calculate_method_complexity node
        body := body }
  | _ =>
      { name := "", returnType := "string", selectors := [], schemaProperties := [],
        complexity := 0, body := "" }

/-! ### File-level analysis -/

/-- The analysis dict built by `analyze_scraper`. -/
structure Analysis where
  className : String
  hostName : String
  methods : List MethodAnalysis
  imports : List String
  complexity : String
  parsingStrategy : String
  filePath : String
deriving DecidableEq, Repr

/-- One iteration of the import-collection loop
(`for node in ast.walk(tree): ...append...`).  Python truthiness of
`node.module` skips both `None` and the empty string. -/
def importStep (acc : List String) (node : PyNode) : List String :=
  match node with
  | .importStmt names => acc ++ names
  | .importFrom m names =>
      match m with
      | some m => if m = "" then acc else acc ++ names.map (fun n => m ++ "." ++ n)
      | none => acc
  | _ => acc

/-- One iteration of the `for item in node.body` loop inside the class loop:
append the analyzed method, and when the method is literally named `host` and
its extracted host name is truthy (not `None`, not `""`), overwrite
`hostName`. -/
def methodItemStep (content : String) (a : Analysis) (item : PyNode) : Analysis :=
  match item with
  | .functionDef fname lineno endLineno fbody =>
      let node : PyNode := .functionDef fname lineno endLineno fbody
      let a := { a with methods := a.methods ++ [analyze_method node content] }
      if fname = "host" then
        match extract_host_name node with
        | some h => if h = "" then a else { a with hostName := h }
        | none => a
      else a
  | _ => a

/-- One iteration of the class-discovery loop
(`for node in ast.walk(tree): if isinstance(node, ast.ClassDef): ...`):
overwrite `className`, then process the direct children of the class body. -/
def classStep (content : String) (a : Analysis) (node : PyNode) : Analysis :=
  match node with
  | .classDef cname body => body.foldl (methodItemStep content) { a with className := cname }
  | _ => a

/-- `total_complexity` local of `determine_complexity`. -/
def total_complexity (a : Analysis) : Int := (a.methods.map MethodAnalysis.complexity).sum

/-- `method_count` local of `determine_complexity`. -/
def method_count (a : Analysis) : Nat := a.methods.length

/-- `determine_complexity(analysis)`. -/
def determine_complexity (a : Analysis) : String :=
  if total_complexity a > 20 ∨ method_count a > 15 then "complex"
  else if total_complexity a > 10 ∨ method_count a > 8 then "medium"
  else "simple"

/-- `_schema_count` local of `determine_parsing_strategy` (computed by the
source but never read afterwards). -/
def schema_count (a : Analysis) : Nat := (a.methods.map (fun m => m.schemaProperties.length)).sum

/-- `selector_count` local of `determine_parsing_strategy`. -/
def selector_count (a : Analysis) : Nat := (a.methods.map (fun m => m.selectors.length)).sum

/-- `"schema" in content.lower() or "json" in content.lower()`. -/
def hasSchemaOrJson (content : String) : Bool :=
  containsSubstr "schema".data (pyLower content).data ||
  containsSubstr "json".data (pyLower content).data

/-- `determine_parsing_strategy(analysis, content)`. -/
def determine_parsing_strategy (a : Analysis) (content : String) : String :=
  if hasSchemaOrJson content then
    if selector_count a > 0 then "mixed" else "schema"
  else "selectors"

/-- `analyze_scraper(file_path)`.  Reading the file and `ast.parse` are outside
the embedding: `content` stands for the text read from `file_path` and `tree`
for `ast.parse(content)`.  Everything after the parse is modelled exactly:
the initial dict, the import loop, the class loop, and the two classifier
calls. -/
def analyze_scraper (file_path content : String) (tree : PyNode) : Analysis :=
  let a : Analysis :=
    { className := "", hostName := "", methods := [], imports := [],
      complexity := "simple", parsingStrategy := "schema", filePath := file_path }
  let a := { a with imports := (walk tree).foldl importStep [] }
  let a := (walk tree).foldl (classStep content) a
  { a with
    complexity := determine_complexity a
    parsingStrategy := determine_parsing_strategy a content }

/-! ### Command-line entry point -/

/-- The two process output streams. -/
inductive StdStream where
  | stdout
  | stderr
deriving DecidableEq, Repr

/-- Outcome of the `__main__` block, up to the point where analysis I/O would
start. -/
inductive MainStep where
  /-- `print(...)` then `sys.exit(1)`: a message on the given stream and a
  non-zero exit status; no file is opened and no analysis is run. -/
  | usageExit (stream : StdStream) (message : String) (exitCode : Nat)
  /-- proceed to `analyze_scraper(sys.argv[1])`: the file at the given path is
  opened and analyzed. -/
  | runAnalysis (file_path : String)
deriving DecidableEq, Repr

/-- The `__main__` block: `argv` is `sys.argv`, so `argv.length = 2` means
exactly one positional argument.  Python's bare `print` writes to standard
output. -/
def mainEntry (argv : List String) : MainStep :=
  if argv.length ≠ 2 then
    .usageExit .stdout "Usage: python analyze_scraper.py <file_path>" 1
  else
    .runAnalysis (argv.getD 1 "")

/-! ### Characterization helpers

Pure per-node functions used to state what the stateful loops of
`analyze_scraper` compute. -/

/-- The import paths a single walked node contributes, per the two
`isinstance` arms of the import loop. -/
def importedNames (node : PyNode) : List String :=
  match node with
  | .importStmt names => names
  | .importFrom (some m) names => if m = "" then [] else names.map (fun n => m ++ "." ++ n)
  | _ => []

/-- Is the node a `ClassDef`? -/
def isClassDefNode : PyNode → Bool
  | .classDef _ _ => true
  | _ => false

/-- The class names contributed by a list of walked nodes, in order. -/
def classNamesIn (l : List PyNode) : List String :=
  l.filterMap fun n =>
    match n with
    | .classDef cname _ => some cname
    | _ => none

/-- The method records contributed by the direct children of one class body. -/
def classBodyMethods (content : String) (body : List PyNode) : List MethodAnalysis :=
  body.filterMap fun item =>
    match item with
    | .functionDef fname lineno endLineno fbody =>
        some (analyze_method (.functionDef fname lineno endLineno fbody) content)
    | _ => none

/-- The method records a walked node contributes to the flat `methods` list. -/
def classMethodsOf (content : String) (node : PyNode) : List MethodAnalysis :=
  match node with
  | .classDef _ body => classBodyMethods content body
  | _ => []

/-- The successful (truthy) `hostName` overwrites produced while processing one
class body, in order: one entry per direct child `def host(...)` whose first
string-literal return value is non-empty. -/
def classBodyHostUpdates (body : List PyNode) : List String :=
  body.filterMap fun item =>
    match item with
    | .functionDef fname lineno endLineno fbody =>
        if fname = "host" then
          match extract_host_name (.functionDef fname lineno endLineno fbody) with
          | some h => if h = "" then none else some h
          | none => none
        else none
    | _ => none

/-- The `hostName` overwrites a walked node contributes. -/
def hostUpdatesOf (node : PyNode) : List String :=
  match node with
  | .classDef _ body => classBodyHostUpdates body
  | _ => []

/-- Does the method subtree node count as a conditional, loop, or
exception-handling construct (`If`, `While`, `For`, `Try`)? -/
def isBranchNode : PyNode → Bool
  | .ifStmt _ _ _ => true
  | .whileStmt _ _ _ => true
  | .forStmt _ _ _ _ => true
  | .tryStmt _ _ _ _ => true
  | _ => false

/-- Is the node a call expression? -/
def isCallNode : PyNode → Bool
  | .call _ _ _ => true
  | _ => false

/-- Modelled from the claim wording: the exact running total of the complexity
scan as a rational number — `+1` per conditional/loop/exception construct in
the walked subtree, `+0.5` per call expression. -/
def ratComplexityStep (acc : ℚ) (node : PyNode) : ℚ :=
  acc + (if isBranchNode node then 1 else if isCallNode node then 1 / 2 else 0)

/-- Modelled from the claim wording: the exact running total of the complexity
scan as a rational number, folded over the walked subtree. -/
def methodComplexityRat (method_node : PyNode) : ℚ :=
  (walk method_node).foldl ratComplexityStep 0

/-- Truncation toward zero of a rational, as Python's `int()`. -/
def ratTrunc (q : ℚ) : Int := if 0 ≤ q then ⌊q⌋ else ⌈q⌉

mutual

/-- Modelled from the spec words (§4.2): the import paths collected when nodes
are visited in pre-order, depth-first order, matching declaration order in
source.  Each node contributes `importedNames` for itself, then its children
in order. -/
def declOrderImports : PyNode → List String
  | .module body => declOrderImportsList body
  | .importStmt names => names
  | .importFrom (some m) names => if m = "" then [] else names.map (fun n => m ++ "." ++ n)
  | .importFrom none _ => []
  | .classDef _ body => declOrderImportsList body
  | .functionDef _ _ _ body => declOrderImportsList body
  | .ret none => []
  | .ret (some v) => declOrderImports v
  | .ifStmt t b o => declOrderImports t ++ declOrderImportsList b ++ declOrderImportsList o
  | .whileStmt t b o => declOrderImports t ++ declOrderImportsList b ++ declOrderImportsList o
  | .forStmt tg it b o =>
      declOrderImports tg ++ declOrderImports it ++ declOrderImportsList b ++ declOrderImportsList o
  | .tryStmt b h o f =>
      declOrderImportsList b ++ declOrderImportsList h ++ declOrderImportsList o ++
        declOrderImportsList f
  | .exceptHandler none body => declOrderImportsList body
  | .exceptHandler (some t) body => declOrderImports t ++ declOrderImportsList body
  | .exprStmt v => declOrderImports v
  | .assign ts v => declOrderImportsList ts ++ declOrderImports v
  | .call f a k => declOrderImports f ++ declOrderImportsList a ++ declOrderImportsList k
  | .strLit _ => []
  | .nameExpr _ => []
  | .attributeExpr v _ => declOrderImports v
  | .numLit _ => []

/-- Pre-order import collection over a list of sibling nodes. -/
def declOrderImportsList : List PyNode → List String
  | [] => []
  | n :: rest => declOrderImports n ++ declOrderImportsList rest

end

/-! ### Concrete inputs used in instantiations -/

/-- A method record with a given complexity score. -/
def mkMethodRec (c : Int) : MethodAnalysis :=
  { name := "m", returnType := "string", selectors := [], schemaProperties := [],
    complexity := c, body := "" }

/-- An analysis whose fifteen methods have total complexity exactly 20
(the boundary of the `complex` tier). -/
def boundaryAnalysis : Analysis :=
  { className := "C", hostName := "", methods := mkMethodRec 20 :: List.replicate 14 (mkMethodRec 0),
    imports := [], complexity := "simple", parsingStrategy := "schema", filePath := "f.py" }

/-- Two top-level classes: `A` has a `host` method returning `"a.com"`;
`B`, visited later, has no methods at all. -/
def twoClassTree : PyNode :=
  .module [.classDef "A" [.functionDef "host" 2 3 [.ret (some (.strLit "a.com"))]],
           .classDef "B" []]

/-- The second class of `twoClassTree` alone. -/
def lastClassOnlyTree : PyNode := .module [.classDef "B" []]

/-- A module whose first statement is a function containing `import a` and
whose second statement is a top-level `import b`: declaration order puts `a`
first, the breadth-first walk puts `b` first. -/
def nestedImportTree : PyNode :=
  .module [.functionDef "f" 1 2 [.importStmt ["a"]], .importStmt ["b"]]

/-! ### Sanity checks

Concrete evaluations of the embedding, matching runs of the Python script. -/

example :
    walk (.module [.classDef "A" [.functionDef "host" 2 3 [.ret (some (.strLit "a.com"))]],
                   .importStmt ["b"]]) =
      [.module [.classDef "A" [.functionDef "host" 2 3 [.ret (some (.strLit "a.com"))]],
                .importStmt ["b"]],
       .classDef "A" [.functionDef "host" 2 3 [.ret (some (.strLit "a.com"))]],
       .importStmt ["b"],
       .functionDef "host" 2 3 [.ret (some (.strLit "a.com"))],
       .ret (some (.strLit "a.com")),
       .strLit "a.com"] := by
  simp [walk, walkAux, children]

example : extract_css_selector ".recipe-ingredient" = some ".recipe-ingredient" := by decide

example : extract_css_selector "foo.com" = some "foo.com" := by decide

example : extract_css_selector "12 - 34" = none := by decide

example : extract_schema_property "[itemprop=cookTime]" = some "cookTime" := by decide

example : extract_schema_property "a name b" = some "name" := by decide

example : extract_schema_property "xyz" = none := by decide

example :
    analyze_scraper "foo_scraper.py"
      "class FooScraper:\n    def host(self):\n        return \"foo.com\""
      (.module [.classDef "FooScraper"
        [.functionDef "host" 2 3 [.ret (some (.strLit "foo.com"))]]]) =
      { className := "FooScraper", hostName := "foo.com",
        methods := [{ name := "host", returnType := "string", selectors := ["foo.com"],
                      schemaProperties := [], complexity := 0,
                      body := "    def host(self):\n        return \"foo.com\"" }],
        imports := [], complexity := "simple", parsingStrategy := "selectors",
        filePath := "foo_scraper.py" } := by
  simp [analyze_scraper, walk, walkAux, children, classStep, methodItemStep, analyze_method,
    importStep, extract_host_name, calculate_method_complexity, determine_complexity,
    determine_parsing_strategy, total_complexity, method_count, selector_count, hasSchemaOrJson]
  decide

/-! ### Lemmas about the loops -/

theorem foldl_importStep (l : List PyNode) :
    ∀ acc : List String, l.foldl importStep acc = acc ++ l.flatMap importedNames := by
  induction l with
  | nil => intro acc; simp
  | cons n rest ih =>
      intro acc
      rw [List.foldl_cons, ih]
      have hstep : importStep acc n = acc ++ importedNames n := by
        cases n with
        | importFrom m names =>
            cases m with
            | none => simp [importStep, importedNames]
            | some s =>
                by_cases hs : s = "" <;> simp [importStep, importedNames, hs]
        | _ => simp [importStep, importedNames]
      rw [List.flatMap_cons, hstep, List.append_assoc]

theorem methodItemStep_fields (content : String) (a : Analysis) (item : PyNode) :
    (methodItemStep content a item).className = a.className ∧
    (methodItemStep content a item).imports = a.imports ∧
    (methodItemStep content a item).filePath = a.filePath := by
  cases item with
  | functionDef f l e b =>
      simp only [methodItemStep]
      split
      · split <;> first | (split <;> simp) | simp
      · simp
  | _ => simp [methodItemStep]

theorem foldl_methodItemStep_methods (content : String) (body : List PyNode) :
    ∀ a : Analysis,
      (body.foldl (methodItemStep content) a).methods =
        a.methods ++ classBodyMethods content body := by
  induction body with
  | nil => intro a; simp [classBodyMethods]
  | cons item rest ih =>
      intro a
      rw [List.foldl_cons]
      cases item with
      | functionDef f l e b =>
          have hm : (methodItemStep content a (.functionDef f l e b)).methods =
              a.methods ++ [analyze_method (.functionDef f l e b) content] := by
            simp only [methodItemStep]
            split
            · split <;> first | (split <;> simp) | simp
            · simp
          rw [ih, hm]
          simp [classBodyMethods]
      | _ =>
          rw [ih]
          simp only [methodItemStep]
          simp [classBodyMethods]

theorem foldl_methodItemStep_hostName (content : String) (body : List PyNode) :
    ∀ a : Analysis,
      (body.foldl (methodItemStep content) a).hostName =
        (classBodyHostUpdates body).getLastD a.hostName := by
  induction body with
  | nil => intro a; simp [classBodyHostUpdates]
  | cons item rest ih =>
      intro a
      rw [List.foldl_cons]
      cases item with
      | functionDef f l e b =>
          by_cases hf : f = "host"
          · subst hf
            rcases hext : extract_host_name (.functionDef "host" l e b) with _ | h
            · rw [ih]
              simp [methodItemStep, hext, classBodyHostUpdates]
            · by_cases hh : h = ""
              · subst hh
                rw [ih]
                simp [methodItemStep, hext, classBodyHostUpdates]
              · have hstep : methodItemStep content a (.functionDef "host" l e b) =
                    { a with
                      methods := a.methods ++ [analyze_method (.functionDef "host" l e b) content],
                      hostName := h } := by
                  simp [methodItemStep, hext, hh]
                have hcbhu : classBodyHostUpdates (PyNode.functionDef "host" l e b :: rest) =
                    h :: classBodyHostUpdates rest := by
                  simp [classBodyHostUpdates, hext, hh]
                rw [hstep, ih, hcbhu, List.getLastD_cons]
          · rw [ih]
            simp [methodItemStep, hf, classBodyHostUpdates]
      | _ =>
          rw [ih]
          simp [methodItemStep, classBodyHostUpdates]

theorem foldl_methodItemStep_fields (content : String) (body : List PyNode) :
    ∀ a : Analysis,
      (body.foldl (methodItemStep content) a).className = a.className ∧
      (body.foldl (methodItemStep content) a).imports = a.imports ∧
      (body.foldl (methodItemStep content) a).filePath = a.filePath := by
  induction body with
  | nil => intro a; simp
  | cons item rest ih =>
      intro a
      rw [List.foldl_cons]
      obtain ⟨h1, h2, h3⟩ := ih (methodItemStep content a item)
      obtain ⟨g1, g2, g3⟩ := methodItemStep_fields content a item
      exact ⟨h1.trans g1, h2.trans g2, h3.trans g3⟩

theorem getLastD_append {α : Type} (xs ys : List α) (d : α) :
    (xs ++ ys).getLastD d = ys.getLastD (xs.getLastD d) := by
  induction xs generalizing d with
  | nil => simp
  | cons x xs ih => rw [List.cons_append, List.getLastD_cons, List.getLastD_cons, ih]

theorem foldl_classStep (content : String) (l : List PyNode) :
    ∀ a : Analysis,
      (l.foldl (classStep content) a).methods =
          a.methods ++ l.flatMap (classMethodsOf content) ∧
      (l.foldl (classStep content) a).className = (classNamesIn l).getLastD a.className ∧
      (l.foldl (classStep content) a).hostName =
          (l.flatMap hostUpdatesOf).getLastD a.hostName ∧
      (l.foldl (classStep content) a).imports = a.imports ∧
      (l.foldl (classStep content) a).filePath = a.filePath := by
  induction l with
  | nil => intro a; simp [classNamesIn]
  | cons n rest ih =>
      intro a
      rw [List.foldl_cons]
      cases n
      case classDef cname body =>
        have hstep : classStep content a (.classDef cname body) =
            body.foldl (methodItemStep content) { a with className := cname } := rfl
        obtain ⟨i1, i2, i3⟩ :=
          foldl_methodItemStep_fields content body { a with className := cname }
        have im := foldl_methodItemStep_methods content body { a with className := cname }
        have ihost := foldl_methodItemStep_hostName content body { a with className := cname }
        obtain ⟨o1, o2, o3, o4, o5⟩ :=
          ih (body.foldl (methodItemStep content) { a with className := cname })
        rw [hstep]
        refine ⟨?_, ?_, ?_, ?_, ?_⟩
        · rw [o1, im]
          simp only [List.flatMap_cons, classMethodsOf, List.append_assoc]
        · rw [o2, i1]
          simp only [classNamesIn, List.filterMap_cons]
          rw [List.getLastD_cons]
        · rw [o3, ihost]
          simp only [List.flatMap_cons, hostUpdatesOf]
          rw [getLastD_append]
        · rw [o4, i2]
        · rw [o5, i3]
      all_goals
        simpa [classStep, classNamesIn, classMethodsOf, hostUpdatesOf] using ih a

theorem analyze_scraper_fields (fp content : String) (tree : PyNode) :
    (analyze_scraper fp content tree).methods = (walk tree).flatMap (classMethodsOf content) ∧
    (analyze_scraper fp content tree).className = (classNamesIn (walk tree)).getLastD "" ∧
    (analyze_scraper fp content tree).hostName =
        ((walk tree).flatMap hostUpdatesOf).getLastD "" ∧
    (analyze_scraper fp content tree).imports = (walk tree).flatMap importedNames := by
  obtain ⟨m, c, hh, i, f⟩ := foldl_classStep content (walk tree)
    { className := "", hostName := "", methods := [],
      imports := (walk tree).foldl importStep [],
      complexity := "simple", parsingStrategy := "schema", filePath := fp }
  have himp := foldl_importStep (walk tree) ([] : List String)
  simp only [analyze_scraper]
  exact ⟨by simpa using m, by simpa using c, by simpa using hh, by rw [i]; simpa using himp⟩

theorem foldl_complexityStep (l : List PyNode) :
    ∀ acc : Int, l.foldl complexityStep acc =
      acc + 2 * (l.countP isBranchNode : Int) + (l.countP isCallNode : Int) := by
  induction l with
  | nil => intro acc; simp
  | cons n rest ih =>
      intro acc
      rw [List.foldl_cons, ih]
      cases n <;>
        simp [complexityStep, isBranchNode, isCallNode, List.countP_cons] <;>
        push_cast <;> ring

theorem foldl_ratComplexityStep (l : List PyNode) :
    ∀ acc : ℚ, l.foldl ratComplexityStep acc =
      acc + (l.countP isBranchNode : ℚ) + (l.countP isCallNode : ℚ) / 2 := by
  induction l with
  | nil => intro acc; simp
  | cons n rest ih =>
      intro acc
      rw [List.foldl_cons, ih]
      cases n <;>
        simp [ratComplexityStep, isBranchNode, isCallNode, List.countP_cons] <;>
        push_cast <;> ring

theorem tdiv_natCast_two (k : ℕ) : Int.tdiv (k : ℤ) 2 = ((k / 2 : ℕ) : ℤ) := rfl

/-! ### Claim theorems -/

/-- C4: for every method node, the complexity score equals the running total
that adds 1 for every conditional, loop, or exception-handling construct in
the walked subtree and 0.5 for every call expression, truncated toward zero
to an integer; consequently it is a non-negative integer. -/
theorem c4_method_complexity (m : PyNode) :
    calculate_method_complexity m = ratTrunc (methodComplexityRat m) ∧
    0 ≤ calculate_method_complexity m := by
  have h1 : calculate_method_complexity m =
      (((walk m).countP isBranchNode + (walk m).countP isCallNode / 2 : ℕ) : ℤ) := by
    unfold calculate_method_complexity
    rw [foldl_complexityStep]
    rw [show ((0 : ℤ) + 2 * ((walk m).countP isBranchNode : ℤ) +
          ((walk m).countP isCallNode : ℤ)) =
        ((2 * (walk m).countP isBranchNode + (walk m).countP isCallNode : ℕ) : ℤ) by
      push_cast; ring]
    rw [tdiv_natCast_two]
    exact_mod_cast congrArg (Nat.cast : ℕ → ℤ) (by omega)
  have h2 : methodComplexityRat m =
      ((walk m).countP isBranchNode : ℚ) + ((walk m).countP isCallNode : ℚ) / 2 := by
    unfold methodComplexityRat
    rw [foldl_ratComplexityStep]
    ring
  have h3 : ratTrunc (((walk m).countP isBranchNode : ℚ) +
        ((walk m).countP isCallNode : ℚ) / 2) =
      (((walk m).countP isBranchNode + (walk m).countP isCallNode / 2 : ℕ) : ℤ) := by
    unfold ratTrunc
    rw [if_pos (by positivity)]
    rw [add_comm, Int.floor_add_nat]
    rw [show ((2 : ℚ) = ((2 : ℕ) : ℚ)) by norm_num, Rat.floor_natCast_div_natCast,
      ← Int.ofNat_ediv]
    push_cast
    ring
  constructor
  · rw [h1, h2, h3]
  · rw [h1]
    exact_mod_cast Nat.zero_le _

/-- C2: the file-level complexity tier is a pure function of the pair
(total complexity, method count); it is `complex` iff `totalComplexity > 20`
or `methodCount > 15`, else `medium` iff `totalComplexity > 10` or
`methodCount > 8`, else `simple`; in particular the boundary
`totalComplexity = 20`, `methodCount = 15` classifies as `medium`. -/
theorem c2_complexity_tier (a b : Analysis)
    (hts : total_complexity a = total_complexity b)
    (hmc : method_count a = method_count b) :
    determine_complexity a = determine_complexity b ∧
    (determine_complexity a = "complex" ↔
      total_complexity a > 20 ∨ method_count a > 15) ∧
    (determine_complexity a = "medium" ↔
      ¬(total_complexity a > 20 ∨ method_count a > 15) ∧
        (total_complexity a > 10 ∨ method_count a > 8)) ∧
    (determine_complexity a = "simple" ↔
      ¬(total_complexity a > 20 ∨ method_count a > 15) ∧
        ¬(total_complexity a > 10 ∨ method_count a > 8)) ∧
    (total_complexity a = 20 → method_count a = 15 →
      determine_complexity a = "medium") := by
  constructor
  · unfold determine_complexity
    rw [hts, hmc]
  · unfold determine_complexity
    split_ifs with h1 h2 <;>
      refine ⟨?_, ?_, ?_, ?_⟩ <;>
      simp_all <;>
      omega

/-- C3: the parsing-strategy tag is a pure function of (case-insensitive
presence of `schema`/`json` in the raw text, total selector count): with the
substring present it is `mixed` when the selector count is positive and
`schema` otherwise, and without it the tag is `selectors`; the
schema-property count has no effect. -/
theorem c3_parsing_strategy (a b : Analysis) (c d : String)
    (hsel : selector_count a = selector_count b)
    (hflag : hasSchemaOrJson c = hasSchemaOrJson d) :
    determine_parsing_strategy a c = determine_parsing_strategy b d ∧
    (determine_parsing_strategy a c = "mixed" ↔
      hasSchemaOrJson c = true ∧ selector_count a > 0) ∧
    (determine_parsing_strategy a c = "schema" ↔
      hasSchemaOrJson c = true ∧ selector_count a = 0) ∧
    (determine_parsing_strategy a c = "selectors" ↔ hasSchemaOrJson c = false) := by
  constructor
  · unfold determine_parsing_strategy
    rw [hsel, hflag]
  · unfold determine_parsing_strategy
    split_ifs with h1 h2 <;>
      refine ⟨?_, ?_, ?_⟩ <;>
      simp_all <;>
      omega

/-- C7: the inferred return type is `"string[]"` iff the method name is
exactly `ingredients` or `instructions`, `number` iff it is exactly
`total_time`, `cook_time` or `prep_time`, and `string` otherwise. -/
theorem c7_return_type (fname : String) (lineno endLineno : Nat)
    (fbody : List PyNode) (content : String) :
    ((analyze_method (.functionDef fname lineno endLineno fbody) content).returnType =
        "string[]" ↔ fname = "ingredients" ∨ fname = "instructions") ∧
    ((analyze_method (.functionDef fname lineno endLineno fbody) content).returnType =
        "number" ↔ fname = "total_time" ∨ fname = "cook_time" ∨ fname = "prep_time") ∧
    ((analyze_method (.functionDef fname lineno endLineno fbody) content).returnType =
        "string" ↔
      ¬(fname = "ingredients" ∨ fname = "instructions" ∨ fname = "total_time" ∨
        fname = "cook_time" ∨ fname = "prep_time")) := by
  by_cases h1 : fname = "ingredients"
  · subst h1
    simp [analyze_method]
  by_cases h2 : fname = "instructions"
  · subst h2
    simp [analyze_method]
  by_cases h3 : fname = "total_time"
  · subst h3
    simp [analyze_method]
  by_cases h4 : fname = "cook_time"
  · subst h4
    simp [analyze_method]
  by_cases h5 : fname = "prep_time"
  · subst h5
    simp [analyze_method]
  · simp [analyze_method, h1, h2, h3, h4, h5]

/-- C1 (amended): the methods of every visited class accumulate into a single
flat list in walk-visit order, and `className` is overwritten by every class
match, so it reflects the last class definition visited; `hostName`, however,
reflects the last successful non-empty host extraction across all visited
classes — a later class without a `host` method (or whose extraction is
falsy) leaves it unchanged rather than overwriting it. -/
theorem c1_class_accumulation (fp content : String) (tree : PyNode) :
    (analyze_scraper fp content tree).methods =
        (walk tree).flatMap (classMethodsOf content) ∧
    (analyze_scraper fp content tree).className = (classNamesIn (walk tree)).getLastD "" ∧
    (analyze_scraper fp content tree).hostName =
        ((walk tree).flatMap hostUpdatesOf).getLastD "" := by
  obtain ⟨m, c, h, -⟩ := analyze_scraper_fields fp content tree
  exact ⟨m, c, h⟩

/-- C1 counterexample: in `twoClassTree` the last class visited is `B`
(so `className = "B"`), yet the reported `hostName` is `"a.com"`, taken from
the earlier class `A`; analyzing the last class alone yields `hostName = ""`.
The later class match therefore did not overwrite `hostName`, contradicting
the claim that each later class match overwrites both identity fields. -/
theorem c1_counterexample :
    (analyze_scraper "s.py" "" twoClassTree).className = "B" ∧
    (analyze_scraper "s.py" "" twoClassTree).hostName = "a.com" ∧
    (analyze_scraper "s.py" "" lastClassOnlyTree).className = "B" ∧
    (analyze_scraper "s.py" "" lastClassOnlyTree).hostName = "" := by
  refine ⟨?_, ?_, ?_, ?_⟩ <;>
    simp [twoClassTree, lastClassOnlyTree, analyze_scraper, walk, walkAux, children,
      classStep, methodItemStep, analyze_method, importStep, extract_host_name]

/-- C6 (amended): the imports list is exactly the per-node contributions
(plain import: each name verbatim; from-import with a truthy module:
`module.name` per name; moduleless from-import: nothing; no deduplication)
concatenated in the order of `ast.walk`, which is a breadth-first traversal —
not pre-order depth-first, so nested imports can appear after later top-level
ones. -/
theorem c6_imports_bfs (fp content : String) (tree : PyNode) :
    (analyze_scraper fp content tree).imports = (walk tree).flatMap importedNames :=
  (analyze_scraper_fields fp content tree).2.2.2

/-- C6 counterexample: in `nestedImportTree` the nested `import a` precedes
the top-level `import b` in declaration order (pre-order depth-first gives
`["a", "b"]`), but the code emits `["b", "a"]` because `ast.walk` is
breadth-first. -/
theorem c6_counterexample :
    (analyze_scraper "s.py" "" nestedImportTree).imports = ["b", "a"] ∧
    declOrderImports nestedImportTree = ["a", "b"] ∧
    (["b", "a"] : List String) ≠ ["a", "b"] := by
  refine ⟨?_, ?_, by decide⟩
  · simp [nestedImportTree, analyze_scraper, walk, walkAux, children, classStep, importStep]
  · simp [nestedImportTree, declOrderImports, declOrderImportsList]

/-- C8: for every tree containing zero class definitions, the report has an
empty `className`, an empty `hostName`, and an empty methods list. -/
theorem c8_no_class (fp content : String) (tree : PyNode)
    (h : ∀ n ∈ walk tree, isClassDefNode n = false) :
    (analyze_scraper fp content tree).className = "" ∧
    (analyze_scraper fp content tree).hostName = "" ∧
    (analyze_scraper fp content tree).methods = [] := by
  obtain ⟨m, c, hh, -⟩ := analyze_scraper_fields fp content tree
  have hnames : classNamesIn (walk tree) = [] := by
    unfold classNamesIn
    apply List.filterMap_eq_nil_iff.mpr
    intro n hn
    have := h n hn
    cases n <;> simp_all [isClassDefNode]
  have hhost : (walk tree).flatMap hostUpdatesOf = [] := by
    apply List.flatMap_eq_nil_iff.mpr
    intro n hn
    have := h n hn
    cases n <;> simp_all [isClassDefNode, hostUpdatesOf]
  have hmeth : (walk tree).flatMap (classMethodsOf content) = [] := by
    apply List.flatMap_eq_nil_iff.mpr
    intro n hn
    have := h n hn
    cases n <;> simp_all [isClassDefNode, classMethodsOf]
  exact ⟨by rw [c, hnames]; rfl, by rw [hh, hhost]; rfl, by rw [m, hmeth]⟩

/-- C8 witness: a one-import module with no class definition. -/
theorem c8_witness :
    (analyze_scraper "empty.py" "import ast" (.module [.importStmt ["ast"]])).className = "" ∧
    (analyze_scraper "empty.py" "import ast" (.module [.importStmt ["ast"]])).hostName = "" ∧
    (analyze_scraper "empty.py" "import ast" (.module [.importStmt ["ast"]])).methods = [] :=
  c8_no_class "empty.py" "import ast" (.module [.importStmt ["ast"]])
    (by
      intro n hn
      simp [walk, walkAux, children] at hn
      rcases hn with h | h <;> subst h <;> rfl)

/-- C9: the selector predicate accepts any string literal containing at least
one ASCII letter (a match of the element-name regex needs only a single
letter, everything after it being optional), so every such literal walked
inside a method subtree is recorded, in its entirety, in the selectors list —
including non-selector literals such as a host method's domain string. -/
theorem c9_letter_selector (fname : String) (lineno endLineno : Nat) (fbody : List PyNode)
    (content s : String) (hs : s.data.any isAsciiLetter = true) :
    extract_css_selector s = some s ∧
    (PyNode.strLit s ∈ walk (.functionDef fname lineno endLineno fbody) →
      s ∈ (analyze_method (.functionDef fname lineno endLineno fbody) content).selectors) := by
  have hsel : extract_css_selector s = some s := by
    have he : searchElement s.data = true := hs
    simp [extract_css_selector, he]
  refine ⟨hsel, fun hmem => ?_⟩
  simp only [analyze_method]
  exact List.mem_filterMap.mpr ⟨.strLit s, hmem, by simpa using hsel⟩

/-- C9 witness: the domain literal `"foo.com"` of a `host` method is recorded
as a selector of that method. -/
theorem c9_witness :
    "foo.com" ∈ (analyze_method (.functionDef "host" 2 3 [.ret (some (.strLit "foo.com"))])
      "class Foo").selectors :=
  (c9_letter_selector "host" 2 3 [.ret (some (.strLit "foo.com"))] "class Foo" "foo.com"
      (by decide)).2
    (by simp [walk, walkAux, children])

/-- C10: when the first string-literal return value found in a direct
`def host` child is the empty string, the truthiness test discards it and the
method item leaves `hostName` unchanged (the empty string, or whatever an
earlier visited class set). -/
theorem c10_empty_host_kept (content : String) (a : Analysis) (lineno endLineno : Nat)
    (hbody : List PyNode)
    (h : extract_host_name (.functionDef "host" lineno endLineno hbody) = some "") :
    (methodItemStep content a (.functionDef "host" lineno endLineno hbody)).hostName =
      a.hostName := by
  simp [methodItemStep, h]

/-- C10 witness: a `host` method returning `""` leaves a previously set
`hostName` intact. -/
theorem c10_witness :
    (methodItemStep "x"
      { className := "A", hostName := "prev.com", methods := [], imports := [],
        complexity := "simple", parsingStrategy := "schema", filePath := "f.py" }
      (.functionDef "host" 2 3 [.ret (some (.strLit ""))])).hostName = "prev.com" :=
  c10_empty_host_kept "x"
    { className := "A", hostName := "prev.com", methods := [], imports := [],
      complexity := "simple", parsingStrategy := "schema", filePath := "f.py" } 2 3
    [.ret (some (.strLit ""))]
    (by simp [extract_host_name, walk, walkAux, children])

/-- C5 (amended): with an argument count other than exactly one positional
argument the tool exits with status 1 and prints the usage message to
standard output (not the error stream), without reading any file or running
any analysis. -/
theorem c5_usage_exit (argv : List String) (h : argv.length ≠ 2) :
    mainEntry argv =
      .usageExit .stdout "Usage: python analyze_scraper.py <file_path>" 1 := by
  simp [mainEntry, h]

/-- C5 witness: invoking with zero positional arguments. -/
theorem c5_witness :
    mainEntry ["analyze_scraper.py"] =
      .usageExit .stdout "Usage: python analyze_scraper.py <file_path>" 1 :=
  c5_usage_exit ["analyze_scraper.py"] (by decide)

/-- C5 counterexample: on a wrong argument count the usage message goes to
standard output, which is not the error stream the claim names. -/
theorem c5_counterexample :
    mainEntry ["analyze_scraper.py"] =
      .usageExit .stdout "Usage: python analyze_scraper.py <file_path>" 1 ∧
    StdStream.stdout ≠ StdStream.stderr :=
  ⟨by decide, by decide⟩

/-- C2 witness: fifteen methods with total complexity exactly 20 classify as
`medium`, not `complex`. -/
theorem c2_witness : determine_complexity boundaryAnalysis = "medium" :=
  (c2_complexity_tier boundaryAnalysis boundaryAnalysis rfl rfl).2.2.2.2
    (by decide) (by decide)

/-- C3 witness: a text containing `json` with zero selectors yields
`schema`. -/
theorem c3_witness : determine_parsing_strategy boundaryAnalysis "import json" = "schema" :=
  (c3_parsing_strategy boundaryAnalysis boundaryAnalysis "import json" "import json"
      rfl rfl).2.2.1.mpr ⟨by decide, by decide⟩

end AnalyzeScraper
